import Mathlib

set_option autoImplicit false

/-!
Verification development for the reactive storage service
(modules ReactiveDocument.ts, ReactiveProperty.ts, ReactiveCollection.ts).

The embedding is a shallow functional/trace model:

* `DocState` models one `ReactiveDocument` instance: its immutable `_key`,
  the list of reactive field names collected by the `ReactiveProperty`
  decorator (`rd:reactiveKeys` metadata), the backing field store
  (`_REACTIVE_PROPERTIES`), the state of the settle-once deferred `_d`
  (pending / resolved / rejected), and its entry-level subscriber list `_ee`.
* Entry-level operations (`emitError`, `emitDelete`, `setProp`, `getState`,
  `resolvedSig`) are direct translations of `ReactiveDocument._emitError`,
  `_emitDelete`, the `ReactiveProperty` descriptor setter,
  `ReactiveDocument.getState` and `_resolved`.
* The collection (`ReactiveCollection`) keeps its documents in a JavaScript
  `Array` used as a string-keyed dictionary (`this._db[key] = o`).  We model
  it as an association list `DB`, and `hasOwnProp` models
  `this._db.hasOwnProperty(key)` — including the fact that `"length"` is an
  own property of every JavaScript array, while array prototype methods
  (`push`, `map`, ...) are not own properties.
* `ReactiveCollection._addEntry` drives an asynchronous lifecycle; we model
  one allocation as a trace of atomic observable steps (`Step`), indexed by
  the behaviour of the concrete entry (`InitBehavior`).  The trace and the
  final map contents are read off the promise chains of `_addEntry` by hand;
  each branch is documented at its definition.
-/

namespace Storage

/-- Scalar values stored in reactive fields.  JavaScript strict equality
(the operator used by the `ReactiveProperty` setter) on such scalar-like
values is modelled by structural equality. -/
inductive Val where
  | undef
  | str (s : String)
  | int (n : Int)
  | bool (b : Bool)
  deriving DecidableEq

/-- Error payloads are identified by their message string. -/
abbrev Err := String

/-- State of the settle-once deferred `_d` of a `ReactiveDocument`
(`Q.defer` in the source): pending, resolved with the document, or
rejected with an error. -/
inductive DState where
  | pending
  | resolved
  | rejected (e : Err)
  deriving DecidableEq

/-- One `ReactiveDocument` instance.  `busL` is its entry-level
`AsyncEventEmitter` subscriber list `_ee` (pairs of event name and an opaque
handler identifier); `reactiveKeys` is the `rd:reactiveKeys` metadata
written by the `ReactiveProperty` decorator; `fields` is the
`_REACTIVE_PROPERTIES` backing store. -/
structure DocState where
  key : String
  reactiveKeys : List String
  fields : List (String × Val)
  dstate : DState
  busL : List (String × Nat)
  deriving DecidableEq

/-- Entry-level events emitted on a document's own emitter `_ee`:
`update` with `{key, field, value}`, `error` with `{key, error}`, and
`delete` carrying the key. -/
inductive DocEv where
  | update (key field : String) (v : Val)
  | error (key : String) (e : Err)
  | delete (key : String)
  deriving DecidableEq

/-- Document as built by the `ReactiveDocument` constructor: fresh pending
deferred, fresh emitter, empty field store; the constructor also wires the
parent channel handlers modelled by `parentErrorHandler` and
`parentDeleteHandler` below. -/
def mkDoc (k : String) (rks : List String) : DocState :=
  { key := k, reactiveKeys := rks, fields := [], dstate := DState.pending, busL := [] }

/-- Translation of the `isPending` getter: `this._d.promise.isPending()`. -/
def DocState.isPending (d : DocState) : Bool :=
  decide (d.dstate = DState.pending)

/-- Reading a reactive field: the decorator's default getter returns the
stored value, or `undefined` when the field was never set. -/
def lookupField : List (String × Val) → String → Val
  | [], _ => Val.undef
  | kv :: rest, f => if kv.1 = f then kv.2 else lookupField rest f

/-- Writing the backing store (`this[RP_KEY][propertyKey] = newValue`). -/
def setField : List (String × Val) → String → Val → List (String × Val)
  | [], f, v => [(f, v)]
  | kv :: rest, f, v => if kv.1 = f then (f, v) :: rest else kv :: setField rest f v

/-- Translation of `ReactiveDocument._emitDelete`: emit the entry-level
`delete` event carrying the key, then `removeAllListeners` on `_ee`.
The deferred `_d` is not touched. -/
def emitDelete (d : DocState) : DocState × List DocEv :=
  ({ d with busL := [] }, [DocEv.delete d.key])

/-- Translation of `ReactiveDocument._emitError`: while the document is
still pending, reject the deferred with the error and fall through to
`_emitDelete`; once settled, emit an entry-level `error` event
`{key, error}` and change nothing else. -/
def emitError (d : DocState) (e : Err) : DocState × List DocEv :=
  if d.isPending then
    emitDelete { d with dstate := DState.rejected e }
  else
    (d, [DocEv.error d.key e])

/-- Handler the `ReactiveDocument` constructor registers on the parent
channel: `_pee.on("error", (err) => this._emitError(err))`. -/
def parentErrorHandler (d : DocState) (e : Err) : DocState × List DocEv :=
  emitError d e

/-- Handler the `ReactiveDocument` constructor registers on the parent
channel: `_pee.on("delete", () => this._emitDelete())`. -/
def parentDeleteHandler (d : DocState) : DocState × List DocEv :=
  emitDelete d

/-- Translation of `ReactiveDocument._resolved`: a no-op unless the
deferred is still pending, in which case it resolves it. -/
def resolvedSig (d : DocState) : DocState :=
  if d.isPending then { d with dstate := DState.resolved } else d

/-- Translation of the `ReactiveProperty` descriptor setter: read the
current value through the getter; if the new value is strictly equal,
return without storing or emitting; otherwise store it and emit one
`update` event `{field, key, value}` on the reactive emitter. -/
def setProp (d : DocState) (f : String) (v : Val) : DocState × List DocEv :=
  if v = lookupField d.fields f then
    (d, [])
  else
    ({ d with fields := setField d.fields f v }, [DocEv.update d.key f v])

/-- Translation of `ReactiveDocument.getState`: a dictionary holding
`"key"` and then, for each name in the `rd:reactiveKeys` metadata, the
current value read through the reactive getter. -/
def getState (d : DocState) : List (String × Val) :=
  ("key", Val.str d.key) :: d.reactiveKeys.map (fun f => (f, lookupField d.fields f))

/-- Collection storage: `ReactiveCollection._db`, a JavaScript `Array` used
as a string-keyed dictionary, modelled as an association list in property
insertion order. -/
abbrev DB := List (String × DocState)

/-- Translation of `this._db.hasOwnProperty(key)`.  The backing object is a
JavaScript `Array`, whose only own property besides the stored keys is the
non-configurable `"length"`; array prototype methods are not own
properties and an empty array has no stored keys. -/
def hasOwnProp (db : DB) (k : String) : Bool :=
  decide (k = "length") || db.any (fun kv => decide (kv.1 = k))

/-- Translation of `ReactiveCollection.hasEntry` as a predicate: the
returned promise fulfills exactly when this is `true`, and rejects with
the not-found error otherwise. -/
def hasEntry (db : DB) (k : String) : Bool :=
  hasOwnProp db k

/-- Deletion of a map slot, `delete this._db[key]`. -/
def eraseKey (db : DB) (k : String) : DB :=
  db.filter (fun kv => !decide (kv.1 = k))

/-- Translation of `ReactiveCollection.read`: iterate `items()` (a
`for..in` loop over the array, which enumerates exactly the stored keys —
`"length"` is not enumerable) and collect `results[doc.key] = doc.read()`,
where the per-document snapshot operation is `getState` (named `read` in
the collection-side revision of the interface). -/
def read (db : DB) : List (String × List (String × Val)) :=
  db.map (fun kv => (kv.2.key, getState kv.2))

/-- Duplicate-key error raised by `_addEntry`. -/
def duplicateErr (k : String) : Err :=
  "Entry " ++ k ++ " already exists"

/-- Observable atomic steps of one `_addEntry` lifecycle, in the order the
code performs them:

* `dbAdd`/`dbRemove`: mutation of `this._db` (`this._db[key] = o`,
  `delete this._db[key]`);
* `allocFulfilled k stillPending`: the promise returned by `_addEntry`
  becomes fulfilled with the entry (`return o.item` at the end of the
  synchronous part of the rejection handler); `stillPending` records
  `o.item.isPending` at that moment;
* `allocRejected`: the promise returned by `_addEntry` becomes rejected;
* `readyResolved`/`readyRejected`: the entry's own readiness deferred
  settles;
* `collInsert`/`collDelete`: collection-level `insert` (with the entry's
  snapshot) and `delete` announcements on `this._ee`;
* `entryDelete`: the entry-level `delete` event of the stored entry. -/
inductive Step where
  | dbAdd (k : String)
  | dbRemove (k : String)
  | allocFulfilled (k : String) (stillPending : Bool)
  | allocRejected (k : String) (e : Err)
  | readyResolved (k : String)
  | readyRejected (k : String) (e : Err)
  | collInsert (k : String) (snap : List (String × Val))
  | collDelete (k : String)
  | entryDelete (k : String)
  deriving DecidableEq

/-- Recogniser for `collInsert` steps. -/
def Step.isCollInsertStep : Step → Bool
  | Step.collInsert _ _ => true
  | _ => false

/-- Recogniser for `collDelete` steps. -/
def Step.isCollDeleteStep : Step → Bool
  | Step.collDelete _ => true
  | _ => false

/-- Recogniser for `allocRejected` steps. -/
def Step.isAllocRejectedStep : Step → Bool
  | Step.allocRejected _ _ => true
  | _ => false

/-- Recogniser for readiness settlement steps (either resolution or
rejection of the entry's deferred). -/
def Step.isReadySettledStep : Step → Bool
  | Step.readyResolved _ => true
  | Step.readyRejected _ _ => true
  | _ => false

/-- Recogniser for `dbRemove` steps. -/
def Step.isDbRemoveStep : Step → Bool
  | Step.dbRemove _ => true
  | _ => false

/-- Behaviour of the concrete entry constructed by the `_newEntry` factory
during one `_addEntry` call:

* `throwsSync e`: the constructor throws synchronously (construction-time
  validation, e.g. an empty key in the phonebook test);
* `readySync`: the constructor calls `_resolved()` before returning;
* `readyLater`: the readiness deferred resolves after the synchronous part
  of `_addEntry` has finished;
* `failLater e`: the readiness deferred rejects after the synchronous part
  (e.g. `_emitError` while still pending);
* `neverSettles`: the readiness deferred never settles;
* `parentDeleteWhilePending`: the parent channel emits `delete` while the
  entry is still pending, and the entry never settles on its own. -/
inductive InitBehavior where
  | throwsSync (e : Err)
  | readySync
  | readyLater
  | failLater (e : Err)
  | neverSettles
  | parentDeleteWhilePending
  deriving DecidableEq

/-- Trace of one `_addEntry db0 k` call whose factory produces the document
`d0` (as constructed, before any settlement) with behaviour `b`, read off
the source:

* `hasEntry(key)` fulfills (`hasOwnProp` true): the fulfillment handler
  throws the duplicate error, so `_addEntry` rejects; nothing else runs.
* Otherwise the rejection handler runs: `_newEntry` is called.  If it
  throws (`throwsSync`), the throw escapes before `this._db[key] = o`, so
  `_addEntry` rejects with that error and nothing was stored.
* Otherwise `this._db[key] = o` stores the entry (`dbAdd`), the forwarding
  handlers are attached, `o.item.promise.then(...)` is registered, and the
  handler returns `o.item`, fulfilling the `_addEntry` promise with the
  entry itself (`allocFulfilled`) — it does not wait for readiness, so the
  entry is reported with whatever pending status it has at that moment.
* When the readiness deferred later resolves, the success continuation
  sets `isItemResolved`, registers `doneCb` on the entry's `delete` event
  and announces collection `insert` with `o.item.read()` (`collInsert`).
* When it rejects instead, the failure continuation runs `doneCb`
  (`delete this._db[key]`; `isItemResolved` is still false so no
  collection `delete` is announced) and rethrows into its own, already
  detached, chain — the `_addEntry` promise is already fulfilled.
* On a parent-channel `delete` while pending, `_emitDelete` announces the
  entry-level `delete` event (`entryDelete`); `doneCb` was never
  registered, so the map and the collection emitter see nothing. -/
def addEntryTrace (db0 : DB) (k : String) (d0 : DocState) (b : InitBehavior) : List Step :=
  if hasOwnProp db0 k then [Step.allocRejected k (duplicateErr k)]
  else
    match b with
    | InitBehavior.throwsSync e => [Step.allocRejected k e]
    | InitBehavior.readySync =>
        [Step.readyResolved k, Step.dbAdd k, Step.allocFulfilled k false,
         Step.collInsert k (getState d0)]
    | InitBehavior.readyLater =>
        [Step.dbAdd k, Step.allocFulfilled k true, Step.readyResolved k,
         Step.collInsert k (getState d0)]
    | InitBehavior.failLater e =>
        [Step.dbAdd k, Step.allocFulfilled k true, Step.readyRejected k e,
         Step.dbRemove k]
    | InitBehavior.neverSettles =>
        [Step.dbAdd k, Step.allocFulfilled k true]
    | InitBehavior.parentDeleteWhilePending =>
        [Step.dbAdd k, Step.allocFulfilled k true, Step.entryDelete k]

/-- Contents of `this._db` after the trace of `addEntryTrace` has run to
quiescence: unchanged on duplicate or synchronous throw; the key removed
again by `doneCb` on initialization failure; otherwise the key maps to the
stored document in its final state (settled for the ready behaviours,
still pending with a cleared listener list after a parent-channel
delete). -/
def addEntryFinalDb (db0 : DB) (k : String) (d0 : DocState) (b : InitBehavior) : DB :=
  if hasOwnProp db0 k then db0
  else
    match b with
    | InitBehavior.throwsSync _ => db0
    | InitBehavior.readySync => db0 ++ [(k, resolvedSig d0)]
    | InitBehavior.readyLater => db0 ++ [(k, resolvedSig d0)]
    | InitBehavior.failLater _ => db0
    | InitBehavior.neverSettles => db0 ++ [(k, d0)]
    | InitBehavior.parentDeleteWhilePending => db0 ++ [(k, (parentDeleteHandler d0).1)]

/-- Trace of deleting a successfully inserted entry: `_emitDelete` emits
the entry-level `delete` event, whose registered handler `doneCb` first
removes the map slot (`delete this._db[key]`) and only then — since
`isItemResolved` is true — announces the collection-level `delete`. -/
def requestDeleteTrace (k : String) : List Step :=
  [Step.entryDelete k, Step.dbRemove k, Step.collDelete k]

/-- Map contents after `doneCb` ran for key `k`. -/
def requestDeleteDb (db : DB) (k : String) : DB :=
  eraseKey db k

/-- Strict precedence of step `a` over step `b` in a trace: the trace
splits as a prefix, then `a`, then a middle part, then `b`. -/
def stepBefore (tr : List Step) (a b : Step) : Prop :=
  ∃ l1 l2 l3, tr = l1 ++ a :: l2 ++ b :: l3

/-- Modelled from the spec: the notification bus.  The implementation used
by the source, `AsyncEventEmitter` from the external package
`ts-async-eventemitter`, is not part of this repository; following §3/§4.3
of the design, `subscribers` is a per-event ordered sequence of listener
handles (here pairs of event name and handler identity, in subscription
order) and an unsubscribe handle removes exactly that listener — the
handler it was created for — idempotently, so that a removed handler is
never delivered to again even if it had been registered several times. -/
structure Bus where
  listeners : List (String × Nat)
  deriving DecidableEq

/-- Subscription, `ee.on(eventName, handler)`: appended in order. -/
def busOn (b : Bus) (name : String) (h : Nat) : Bus :=
  Bus.mk (b.listeners ++ [(name, h)])

/-- Removal, `ee.removeListener(eventName, handler)`: drops the matching
listener registrations for that event name and handler. -/
def removeListener (b : Bus) (name : String) (h : Nat) : Bus :=
  Bus.mk (b.listeners.filter (fun x => !decide (x.1 = name ∧ x.2 = h)))

/-- Delivery list of `ee.emitAsync(name, ...)`: the handlers subscribed to
`name`, in subscription order. -/
def publishList (b : Bus) (name : String) : List Nat :=
  (b.listeners.filter (fun x => decide (x.1 = name))).map (fun x => x.2)

/-- Translation of `_registerEvent` (identical in `ReactiveDocument` and
`ReactiveCollection`): subscribe the handler and return the unsubscribe
closure `() => ee.removeListener(eventName, handler)`. -/
def registerEvent (b : Bus) (name : String) (h : Nat) : Bus × (Bus → Bus) :=
  (busOn b name h, fun b2 => removeListener b2 name h)

/-- Pending document used in concrete instances. -/
def docK : DocState := mkDoc "k" []

/-- Pending document with key `a`. -/
def docA : DocState := mkDoc "a" []

/-- Document that has settled successfully. -/
def docR : DocState := resolvedSig docA

/-- Document with one reactive field `age` currently set to 29. -/
def docF : DocState :=
  { mkDoc "Arya" ["age"] with fields := [("age", Val.int 29)] }

/-- Single-entry collection map. -/
def dbA : DB := [("a", docA)]

/-- Empty bus. -/
def busEmpty : Bus := Bus.mk []

/-- Bus with the handler 7 registered twice for `update`, plus two other
subscriptions. -/
def busEx : Bus :=
  Bus.mk [("update", 7), ("update", 7), ("update", 9), ("delete", 7)]

/-- Keys that can be stored in `_db` are never `"length"`: `_addEntry`
only stores a key after `hasEntry` rejected for it, and `hasOwnProp`
always holds for `"length"`. -/
theorem allocatedKey_ne_length (db : DB) (k : String)
    (h : hasOwnProp db k = false) : k ≠ "length" := by
  intro hk
  simp [hasOwnProp, hk] at h

/-- Updating a field stores the written value: reading it back through
the reactive getter yields the new value. -/
theorem lookupField_setField (fs : List (String × Val)) (f : String) (v : Val) :
    lookupField (setField fs f v) f = v := by
  induction fs with
  | nil => simp [setField, lookupField]
  | cons kv rest ih =>
      by_cases h : kv.1 = f
      · simp [setField, h, lookupField]
      · simp [setField, h, lookupField, ih]

/-- Claim C2: if the key is already present in the entries map, a further
`_addEntry` call for it rejects with the duplicate-key error and does
nothing else: the trace is the single rejection step (no entry is
constructed, no listener fires) and the map — in particular the existing
entry — is unchanged. -/
theorem c2_duplicate_key_rejected (db : DB) (k : String) (d0 : DocState)
    (b : InitBehavior) (d : DocState) (h : (k, d) ∈ db) :
    addEntryTrace db k d0 b = [Step.allocRejected k (duplicateErr k)] ∧
    addEntryFinalDb db k d0 b = db := by
  have hp : hasOwnProp db k = true := by
    have hany : db.any (fun kv => decide (kv.1 = k)) = true :=
      List.any_eq_true.mpr ⟨(k, d), h, by simp⟩
    simp [hasOwnProp, hany]
  exact ⟨by simp [addEntryTrace, hp], by simp [addEntryFinalDb, hp]⟩

/-- Witness for C2 at a concrete occupied key. -/
theorem c2_duplicate_key_rejected_witness :
    addEntryTrace dbA "a" docK InitBehavior.readySync
        = [Step.allocRejected "a" (duplicateErr "a")] ∧
    addEntryFinalDb dbA "a" docK InitBehavior.readySync = dbA :=
  c2_duplicate_key_rejected dbA "a" docK InitBehavior.readySync docA (by decide)

/-- Claim C4: `_emitError` — reached identically from internal logic and
from the parent channel's `error` handler — rejects the deferred with the
error and emits the entry-level `delete` event (disposing the entry,
clearing its listeners) when the entry is still pending; when the entry
has already settled it emits an entry-level `error` event `{key, error}`
and leaves the entry untouched. -/
theorem c4_error_policy (d : DocState) (e : Err) :
    parentErrorHandler d e = emitError d e ∧
    (d.isPending = true →
      emitError d e
        = ({ d with dstate := DState.rejected e, busL := [] }, [DocEv.delete d.key])) ∧
    (d.isPending = false →
      emitError d e = (d, [DocEv.error d.key e])) := by
  refine ⟨rfl, ?_, ?_⟩
  · intro h
    simp [emitError, emitDelete, h]
  · intro h
    simp [emitError, h]

/-- Witness for C4: a pending document is rejected and disposed, a settled
one only gets an `error` event. -/
theorem c4_error_policy_witness :
    (emitError docK "boom"
        = ({ docK with dstate := DState.rejected "boom", busL := [] },
           [DocEv.delete docK.key])) ∧
    (emitError docR "boom" = (docR, [DocEv.error docR.key "boom"])) :=
  ⟨(c4_error_policy docK "boom").2.1 (by decide),
   (c4_error_policy docR "boom").2.2 (by decide)⟩

/-- Claim C5: the reactive setter is a no-op (no event, state unchanged)
when the assigned value equals the current one, and otherwise stores the
value and emits exactly one `update` event `{key, field, value}` carrying
the new value, which is then readable through the getter. -/
theorem c5_update_noop_on_equal (d : DocState) (f : String) (v : Val) :
    (v = lookupField d.fields f → setProp d f v = (d, [])) ∧
    (v ≠ lookupField d.fields f →
      setProp d f v
          = ({ d with fields := setField d.fields f v }, [DocEv.update d.key f v]) ∧
      lookupField (setProp d f v).1.fields f = v) := by
  constructor
  · intro h
    simp [setProp, h]
  · intro h
    refine ⟨by simp [setProp, h], ?_⟩
    simp [setProp, h, lookupField_setField]

/-- Witness for C5: writing 29 over 29 is silent, writing 30 emits one
update event with the new value. -/
theorem c5_update_noop_on_equal_witness :
    setProp docF "age" (Val.int 29) = (docF, []) ∧
    (setProp docF "age" (Val.int 30)
        = ({ docF with fields := setField docF.fields "age" (Val.int 30) },
           [DocEv.update docF.key "age" (Val.int 30)]) ∧
     lookupField (setProp docF "age" (Val.int 30)).1.fields "age" = Val.int 30) :=
  ⟨(c5_update_noop_on_equal docF "age" (Val.int 29)).1 (by decide),
   (c5_update_noop_on_equal docF "age" (Val.int 30)).2 (by decide)⟩

/-- Claim C7 evidence: `hasEntry` is decided by `hasOwnProperty` on a
JavaScript array, so the never-allocated key `"length"` — an own property
of the backing array — fulfills on an empty collection even though no
entry with that key exists, while prototype property names such as
`"push"` are correctly rejected. -/
theorem c7_hasEntry_length_anomaly :
    hasEntry ([] : DB) "length" = true ∧
    (([] : DB).any (fun kv => decide (kv.1 = "length"))) = false ∧
    hasEntry ([] : DB) "push" = false := by
  decide

/-- Claim C1 counterexample: a successful `_addEntry` on an empty map for
key `k`, whose entry never settles, fulfills the allocation promise with
the still-pending entry; no collection `insert` is announced before (or
ever) and the readiness deferred has not resolved — so the allocation
future does fulfill while the entry is still pending, contrary to the
claim. -/
theorem c1_counterexample :
    Step.allocFulfilled "k" true
        ∈ addEntryTrace [] "k" docK InitBehavior.neverSettles ∧
    (addEntryTrace [] "k" docK InitBehavior.neverSettles).all
        (fun s => !s.isCollInsertStep) = true ∧
    Step.readyResolved "k" ∉ addEntryTrace [] "k" docK InitBehavior.neverSettles := by
  decide

/-- Claim C1 amended: on success the collection announces `insert` with
the entry's snapshot only after the entry's readiness resolves, but the
promise returned by `_addEntry` fulfills with the entry as soon as it is
constructed and stored — possibly while the entry is still pending — so
readiness is not guaranteed at fulfillment and callers must wait on the
entry's own readiness promise. -/
theorem c1_amended_alloc_fulfills_before_ready (db : DB) (k : String)
    (d0 : DocState) (h : hasOwnProp db k = false) :
    stepBefore (addEntryTrace db k d0 InitBehavior.readyLater)
        (Step.allocFulfilled k true) (Step.readyResolved k) ∧
    stepBefore (addEntryTrace db k d0 InitBehavior.readyLater)
        (Step.readyResolved k) (Step.collInsert k (getState d0)) ∧
    Step.allocFulfilled k true ∈ addEntryTrace db k d0 InitBehavior.neverSettles ∧
    (addEntryTrace db k d0 InitBehavior.neverSettles).all
        (fun s => !s.isCollInsertStep && !s.isReadySettledStep) = true := by
  have ht : addEntryTrace db k d0 InitBehavior.readyLater
      = [Step.dbAdd k, Step.allocFulfilled k true, Step.readyResolved k,
         Step.collInsert k (getState d0)] := by
    simp [addEntryTrace, h]
  have hn : addEntryTrace db k d0 InitBehavior.neverSettles
      = [Step.dbAdd k, Step.allocFulfilled k true] := by
    simp [addEntryTrace, h]
  refine ⟨⟨[Step.dbAdd k], [], [Step.collInsert k (getState d0)], by rw [ht]; rfl⟩,
          ⟨[Step.dbAdd k, Step.allocFulfilled k true], [], [], by rw [ht]; rfl⟩,
          by rw [hn]; simp,
          by rw [hn]; rfl⟩

/-- Witness for the amended C1 at a fresh key on the empty map. -/
theorem c1_amended_alloc_fulfills_before_ready_witness :
    stepBefore (addEntryTrace [] "k" docK InitBehavior.readyLater)
        (Step.allocFulfilled "k" true) (Step.readyResolved "k") ∧
    stepBefore (addEntryTrace [] "k" docK InitBehavior.readyLater)
        (Step.readyResolved "k") (Step.collInsert "k" (getState docK)) ∧
    Step.allocFulfilled "k" true ∈ addEntryTrace [] "k" docK InitBehavior.neverSettles ∧
    (addEntryTrace [] "k" docK InitBehavior.neverSettles).all
        (fun s => !s.isCollInsertStep && !s.isReadySettledStep) = true :=
  c1_amended_alloc_fulfills_before_ready [] "k" docK (by decide)

/-- Claim C3 counterexample: when the stored entry's readiness deferred
rejects after construction, the promise returned by `_addEntry` has
already fulfilled with the entry and never rejects — so the allocation
future does not fail with the initialization error, contrary to the
claim (the key removal and the absence of events do hold). -/
theorem c3_counterexample :
    (addEntryTrace [] "k" docK (InitBehavior.failLater "boom")).all
        (fun s => !s.isAllocRejectedStep) = true ∧
    Step.allocFulfilled "k" true
        ∈ addEntryTrace [] "k" docK (InitBehavior.failLater "boom") ∧
    Step.dbRemove "k" ∈ addEntryTrace [] "k" docK (InitBehavior.failLater "boom") := by
  decide

/-- Claim C3 amended: if construction throws synchronously
(construction-time validation), `_addEntry` rejects with that error and
the key is never added; if instead the readiness deferred rejects after
construction, the key is removed from the map (so `hasEntry` subsequently
fails) and no collection-level `insert` or `delete` is announced, but the
allocation promise does not fail — it already fulfilled with the entry,
and the error surfaces only through the entry's own readiness promise. -/
theorem c3_amended_failure_paths (db : DB) (k : String) (d0 : DocState)
    (e : Err) (h : hasOwnProp db k = false) :
    (addEntryTrace db k d0 (InitBehavior.throwsSync e) = [Step.allocRejected k e] ∧
     addEntryFinalDb db k d0 (InitBehavior.throwsSync e) = db) ∧
    (Step.dbRemove k ∈ addEntryTrace db k d0 (InitBehavior.failLater e) ∧
     Step.readyRejected k e ∈ addEntryTrace db k d0 (InitBehavior.failLater e) ∧
     Step.allocFulfilled k true ∈ addEntryTrace db k d0 (InitBehavior.failLater e) ∧
     (addEntryTrace db k d0 (InitBehavior.failLater e)).all
         (fun s => !s.isCollInsertStep && !s.isCollDeleteStep
             && !s.isAllocRejectedStep) = true ∧
     addEntryFinalDb db k d0 (InitBehavior.failLater e) = db ∧
     hasEntry (addEntryFinalDb db k d0 (InitBehavior.failLater e)) k = false) := by
  have ht : addEntryTrace db k d0 (InitBehavior.failLater e)
      = [Step.dbAdd k, Step.allocFulfilled k true, Step.readyRejected k e,
         Step.dbRemove k] := by
    simp [addEntryTrace, h]
  have hdb : addEntryFinalDb db k d0 (InitBehavior.failLater e) = db := by
    simp [addEntryFinalDb, h]
  refine ⟨⟨by simp [addEntryTrace, h], by simp [addEntryFinalDb, h]⟩,
          by rw [ht]; simp, by rw [ht]; simp, by rw [ht]; simp,
          by rw [ht]; rfl, hdb, by rw [hdb]; exact h⟩

/-- Witness for the amended C3 at a fresh key on the empty map. -/
theorem c3_amended_failure_paths_witness :
    (addEntryTrace [] "k" docK (InitBehavior.throwsSync "boom")
        = [Step.allocRejected "k" "boom"] ∧
     addEntryFinalDb [] "k" docK (InitBehavior.throwsSync "boom") = []) ∧
    (Step.dbRemove "k" ∈ addEntryTrace [] "k" docK (InitBehavior.failLater "boom") ∧
     Step.readyRejected "k" "boom"
        ∈ addEntryTrace [] "k" docK (InitBehavior.failLater "boom") ∧
     Step.allocFulfilled "k" true
        ∈ addEntryTrace [] "k" docK (InitBehavior.failLater "boom") ∧
     (addEntryTrace [] "k" docK (InitBehavior.failLater "boom")).all
         (fun s => !s.isCollInsertStep && !s.isCollDeleteStep
             && !s.isAllocRejectedStep) = true ∧
     addEntryFinalDb [] "k" docK (InitBehavior.failLater "boom") = [] ∧
     hasEntry (addEntryFinalDb [] "k" docK (InitBehavior.failLater "boom")) "k"
         = false) :=
  c3_amended_failure_paths [] "k" docK "boom" (by decide)

/-- Claim C6: deleting a successfully inserted entry removes its map slot
strictly before the collection-level `delete` is announced (so `hasEntry`
run from a `delete` handler already fails), and afterwards the key is
absent: `hasEntry` fails and the key does not occur in the collection
snapshot.  The hypotheses hold for every successfully inserted entry: its
key passed the freshness check (hence is not `"length"`, by
`allocatedKey_ne_length`) and `_addEntry` stores each document under its
own key. -/
theorem c6_delete_removes_before_announce (db : DB) (k : String)
    (hk : k ≠ "length") (hinv : ∀ kv ∈ db, kv.2.key = kv.1) :
    stepBefore (requestDeleteTrace k) (Step.dbRemove k) (Step.collDelete k) ∧
    hasEntry (requestDeleteDb db k) k = false ∧
    (read (requestDeleteDb db k)).all (fun kv => !decide (kv.1 = k)) = true := by
  refine ⟨⟨[Step.entryDelete k], [], [], rfl⟩, ?_, ?_⟩
  · have hany : (requestDeleteDb db k).any (fun kv => decide (kv.1 = k)) = false := by
      rw [Bool.eq_false_iff]
      intro hcon
      obtain ⟨kv, hmem, hkv⟩ := List.any_eq_true.mp hcon
      have hf := (List.mem_filter.mp hmem).2
      rw [decide_eq_true_eq] at hkv
      simp [hkv] at hf
    simp [hasEntry, hasOwnProp, hk, hany]
  · rw [List.all_eq_true]
    intro p hp
    obtain ⟨kv, hkvmem, hpeq⟩ := List.mem_map.mp hp
    have hdb : kv ∈ db := List.mem_of_mem_filter hkvmem
    have hkey : kv.2.key = kv.1 := hinv kv hdb
    have hne := (List.mem_filter.mp hkvmem).2
    rw [← hpeq]
    simp only [hkey]
    exact hne

/-- Witness for C6 on a one-entry collection. -/
theorem c6_delete_removes_before_announce_witness :
    stepBefore (requestDeleteTrace "a") (Step.dbRemove "a") (Step.collDelete "a") ∧
    hasEntry (requestDeleteDb dbA "a") "a" = false ∧
    (read (requestDeleteDb dbA "a")).all (fun kv => !decide (kv.1 = "a")) = true :=
  c6_delete_removes_before_announce dbA "a" (by decide) (by decide)

/-- Claim C8: the collection snapshot maps each key present in the map —
and nothing else — to exactly that entry's own snapshot (its key together
with the current values of its reactive fields, which is what `getState`
returns).  The hypothesis that each document is stored under its own key
is the `_addEntry` storage invariant. -/
theorem c8_read_is_snapshot_map (db : DB) (hinv : ∀ kv ∈ db, kv.2.key = kv.1) :
    read db = db.map (fun kv => (kv.1, getState kv.2)) := by
  induction db with
  | nil => rfl
  | cons kv rest ih =>
      have h1 : kv.2.key = kv.1 := hinv kv (List.mem_cons_self kv rest)
      have h2 : ∀ p ∈ rest, p.2.key = p.1 :=
        fun p hp => hinv p (List.mem_cons_of_mem kv hp)
      simp only [read, List.map_cons] at ih ⊢
      rw [h1, ih h2]

/-- Witness for C8 on a one-entry collection. -/
theorem c8_read_is_snapshot_map_witness :
    read dbA = dbA.map (fun kv => (kv.1, getState kv.2)) :=
  c8_read_is_snapshot_map dbA (by decide)

/-- Claim C9: the unsubscribe closure returned by `_registerEvent` removes
exactly the listener it was created for — every other subscription, for
any event name and handler, is untouched — calling it again is a no-op
even when the same handler had been registered several times, and a
removed handler no longer occurs in the delivery list of any later
publication of that event. -/
theorem c9_unsubscribe_contract (b0 b2 : Bus) (name : String) (h : Nat) :
    (registerEvent b0 name h).2 ((registerEvent b0 name h).2 b2)
        = (registerEvent b0 name h).2 b2 ∧
    h ∉ publishList ((registerEvent b0 name h).2 b2) name ∧
    (∀ n2 h2, ¬(n2 = name ∧ h2 = h) →
      ((n2, h2) ∈ ((registerEvent b0 name h).2 b2).listeners
          ↔ (n2, h2) ∈ b2.listeners)) := by
  refine ⟨?_, ?_, ?_⟩
  · simp only [registerEvent, removeListener]
    rw [Bus.mk.injEq, List.filter_filter]
    apply List.filter_congr
    intro x hx
    rw [Bool.and_self]
  · intro hcon
    simp only [registerEvent, removeListener, publishList] at hcon
    obtain ⟨x, hxmem, hx2⟩ := List.mem_map.mp hcon
    have hxf := List.mem_filter.mp hxmem
    have hxg := List.mem_filter.mp hxf.1
    rw [decide_eq_true_eq] at hxf
    have : (!decide (x.1 = name ∧ x.2 = h)) = true := hxg.2
    simp [hxf.2, hx2] at this
  · intro n2 h2 hne
    simp only [registerEvent, removeListener]
    constructor
    · intro hmem
      exact (List.mem_filter.mp hmem).1
    · intro hmem
      rw [List.mem_filter]
      refine ⟨hmem, ?_⟩
      simp [hne]

/-- Witness for C9: with handler 7 registered twice for `update`, its
handle is idempotent, 7 is no longer delivered to for `update`, and the
unrelated subscriptions survive. -/
theorem c9_unsubscribe_contract_witness :
    (registerEvent busEmpty "update" 7).2 ((registerEvent busEmpty "update" 7).2 busEx)
        = (registerEvent busEmpty "update" 7).2 busEx ∧
    7 ∉ publishList ((registerEvent busEmpty "update" 7).2 busEx) "update" ∧
    (("update", 9) ∈ ((registerEvent busEmpty "update" 7).2 busEx).listeners
        ↔ ("update", 9) ∈ busEx.listeners) :=
  ⟨(c9_unsubscribe_contract busEmpty busEx "update" 7).1,
   (c9_unsubscribe_contract busEmpty busEx "update" 7).2.1,
   (c9_unsubscribe_contract busEmpty busEx "update" 7).2.2 "update" 9 (by decide)⟩

/-- Claim C10: when the parent channel emits `delete` while the entry is
still pending (and the entry never settles on its own), the entry-level
`delete` event is announced and all entry-level listeners are removed,
but the readiness deferred never settles — it stays pending — and, for an
entry allocated through the collection, no map removal and no
collection-level `delete` ever happen, so the key stays in the map and
`hasEntry` keeps fulfilling. -/
theorem c10_parent_delete_while_pending (db : DB) (k : String) (d0 : DocState)
    (h : hasOwnProp db k = false) (hd : d0.dstate = DState.pending) :
    Step.entryDelete k
        ∈ addEntryTrace db k d0 InitBehavior.parentDeleteWhilePending ∧
    (addEntryTrace db k d0 InitBehavior.parentDeleteWhilePending).all
        (fun s => !s.isReadySettledStep && !s.isDbRemoveStep
            && !s.isCollDeleteStep) = true ∧
    addEntryFinalDb db k d0 InitBehavior.parentDeleteWhilePending
        = db ++ [(k, (parentDeleteHandler d0).1)] ∧
    (parentDeleteHandler d0).1.dstate = DState.pending ∧
    (parentDeleteHandler d0).1.busL = [] ∧
    hasEntry (addEntryFinalDb db k d0 InitBehavior.parentDeleteWhilePending) k
        = true := by
  have ht : addEntryTrace db k d0 InitBehavior.parentDeleteWhilePending
      = [Step.dbAdd k, Step.allocFulfilled k true, Step.entryDelete k] := by
    simp [addEntryTrace, h]
  have hdb : addEntryFinalDb db k d0 InitBehavior.parentDeleteWhilePending
      = db ++ [(k, (parentDeleteHandler d0).1)] := by
    simp [addEntryFinalDb, h]
  refine ⟨by rw [ht]; simp, by rw [ht]; rfl, hdb,
          by simp [parentDeleteHandler, emitDelete, hd],
          by simp [parentDeleteHandler, emitDelete], ?_⟩
  rw [hdb]
  have hone : ((db ++ [(k, (parentDeleteHandler d0).1)]).any
      (fun kv => decide (kv.1 = k))) = true := by
    rw [List.any_eq_true]
    exact ⟨(k, (parentDeleteHandler d0).1), by simp, by simp⟩
  simp [hasEntry, hasOwnProp, hone]

/-- Witness for C10 at a fresh key on the empty map. -/
theorem c10_parent_delete_while_pending_witness :
    Step.entryDelete "k"
        ∈ addEntryTrace [] "k" docK InitBehavior.parentDeleteWhilePending ∧
    (addEntryTrace [] "k" docK InitBehavior.parentDeleteWhilePending).all
        (fun s => !s.isReadySettledStep && !s.isDbRemoveStep
            && !s.isCollDeleteStep) = true ∧
    addEntryFinalDb [] "k" docK InitBehavior.parentDeleteWhilePending
        = [] ++ [("k", (parentDeleteHandler docK).1)] ∧
    (parentDeleteHandler docK).1.dstate = DState.pending ∧
    (parentDeleteHandler docK).1.busL = [] ∧
    hasEntry (addEntryFinalDb [] "k" docK InitBehavior.parentDeleteWhilePending) "k"
        = true :=
  c10_parent_delete_while_pending [] "k" docK (by decide) (by decide)

end Storage
